import Mathlib

/-!
Shallow embedding of `src/logger.rs`: a leveled, key-value structured-logging
core.  Loggers form hierarchies sharing one swappable drain cell; each logger
carries an ordered list of owned key-value pairs; a logging call builds record
metadata, borrows the calling thread's scratch buffer, invokes the current
drain once, discards any drain error and clears the buffer.

Modelling conventions:
* `OwnedKeyValue` / `BorrowedKeyValue` are string pairs (the external key-value
  types are consumed only).
* Timestamps (`chrono::DateTime<chrono::UTC>`) are abstract instants modelled
  as natural numbers; "now" is passed explicitly to `RecordInfo.ts`.
* A `Buffer` models a `Vec<u8>`: a list of bytes plus a capacity; `clear`
  empties the data and keeps the capacity, as `Vec::clear` does.
* A drain (`Box<drain::Drain>` trait object) is modelled by `DrainImpl`:
  either the `discard` drain or a custom drain with an identity, a failure
  flag and the bytes it writes into the buffer.  Its `runLog` returns the
  `Result` together with the mutated buffer.
* The shared mutable state is `LogState`: the list of shared drain cells
  (one per hierarchy, indexed by cell id) and the per-thread scratch buffers
  (`TL_BUF`), indexed by thread id.
* `Logger.log` additionally returns the list of drain invocations it
  performed (each with the exact arguments passed), so that "invokes the
  drain exactly once with these arguments" is a statement about its result.
-/

/-- Logging level (external enum, most severe first):
Critical, Error, Warning, Info, Debug, Trace. -/
inductive Level where
  | critical
  | error
  | warning
  | info
  | debug
  | trace
  deriving DecidableEq, Repr

/-- Owned key-value pair, bound into a `Logger` at construction time. -/
abbrev OwnedKeyValue := String × String

/-- Borrowed key-value pair, supplied at call time. -/
abbrev BorrowedKeyValue := String × String

/-- Abstract instant (models `chrono::DateTime<chrono::UTC>`). -/
abbrev Timestamp := Nat

/-- A growable byte buffer (`Vec<u8>`): its contents and its capacity. -/
structure Buffer where
  data : List Nat
  cap : Nat
  deriving DecidableEq, Repr

/-- `Vec::clear`: empties the data, retains the capacity. -/
def Buffer.clear (b : Buffer) : Buffer :=
  { b with data := [] }

/-- `Vec::with_capacity(n)`: an empty buffer with capacity `n`. -/
def Buffer.withCapacity (n : Nat) : Buffer :=
  { data := [], cap := n }

/-- `RecordInfo`: per-call record metadata.  `tsCell` models the
`RefCell<Option<DateTime>>` holding the lazily materialized timestamp. -/
structure RecordInfo where
  tsCell : Option Timestamp
  level : Level
  msg : String
  deriving DecidableEq, Repr

/-- `RecordInfo::new(level, msg)`: timestamp absent, level and message set. -/
def RecordInfo.new (level : Level) (msg : String) : RecordInfo :=
  { tsCell := none, level := level, msg := msg }

/-- `RecordInfo::ts()`: lazily evaluated timestamp.  `now` is the instant the
wall clock would deliver if consulted at this call.  Returns the observed
timestamp together with the (possibly updated) record. -/
def RecordInfo.ts (r : RecordInfo) (now : Timestamp) : Timestamp × RecordInfo :=
  match r.tsCell with
  | none => (now, { r with tsCell := some now })
  | some t => (t, r)

/-- `RecordInfo::set_ts(ts)`: overrides the memoized timestamp. -/
def RecordInfo.set_ts (r : RecordInfo) (t : Timestamp) : RecordInfo :=
  { r with tsCell := some t }

/-- A drain implementation (`Box<drain::Drain>` trait object): the no-op
`discard` drain, or a custom drain distinguished by `id` that writes `output`
into the buffer and reports failure when `fails` is set. -/
inductive DrainImpl where
  | discard
  | custom (id : Nat) (fails : Bool) (output : List Nat)
  deriving DecidableEq, Repr

/-- `Drain::log(&mut buf, &mut info, logger_values, values)`: returns the
`Result` together with the buffer as mutated by the drain.  The `discard`
drain does nothing and succeeds; a custom drain appends its output (growing
the capacity if needed) and reports its failure flag. -/
def DrainImpl.runLog : DrainImpl → Buffer → RecordInfo → List OwnedKeyValue →
    List BorrowedKeyValue → Except Unit Unit × Buffer
  | .discard, buf, _, _, _ => (.ok (), buf)
  | .custom _ fails out, buf, _, _, _ =>
      ((if fails then .error () else .ok ()),
       { data := buf.data ++ out, cap := max buf.cap (buf.data.length + out.length) })

/-- The mutable state of the system: the shared drain cells (one per
hierarchy, a cell id is an index into `cells`) and the thread-local scratch
buffers (`TL_BUF`), one per thread id. -/
structure LogState where
  cells : List DrainImpl
  bufs : Nat → Buffer

/-- Initial state: no hierarchy yet; every thread's scratch buffer starts as
`Vec::with_capacity(128)`, as in the `thread_local!` initializer. -/
def LogState.init : LogState :=
  { cells := [], bufs := fun _ => Buffer.withCapacity 128 }

/-- `Logger`: a cell id naming the hierarchy's shared drain cell
(`Arc<ArcCell<Box<Drain>>>`), and the ordered owned key-value sequence. -/
structure Logger where
  drain : Nat
  values : List OwnedKeyValue
  deriving DecidableEq, Repr

/-- `Logger::new_root(values)`: builds a fresh hierarchy — allocates a new
shared drain cell seeded with the `discard` drain — and a logger holding the
given values. -/
def Logger.new_root (values : List OwnedKeyValue) (st : LogState) :
    Logger × LogState :=
  ({ drain := st.cells.length, values := values },
   { st with cells := st.cells ++ [DrainImpl.discard] })

/-- `Logger::new(&self, values)`: builds a child logger; clones the parent's
values, appends the new ones, and shares the parent's drain cell. -/
def Logger.new (l : Logger) (values : List OwnedKeyValue) : Logger :=
  { drain := l.drain, values := l.values ++ values }

/-- Iterated child derivation: fold `Logger.new` over a list of value lists. -/
def Logger.deriveAll (l : Logger) (vss : List (List OwnedKeyValue)) : Logger :=
  vss.foldl Logger.new l

/-- `Logger::set_drain(drain)`: installs `d` in the hierarchy's shared cell,
discarding the previous drain (`let _ = self.drain.set(...)`). -/
def Logger.set_drain (l : Logger) (d : DrainImpl) (st : LogState) : LogState :=
  { st with cells := st.cells.set l.drain d }

/-- `Logger::swap_drain(drain)`: installs `d` in the shared cell and returns
the previously active drain (`self.drain.set(drain)` on the `ArcCell`). -/
def Logger.swap_drain (l : Logger) (d : DrainImpl) (st : LogState) :
    Option DrainImpl × LogState :=
  (st.cells[l.drain]?, { st with cells := st.cells.set l.drain d })

/-- `self.drain.get()`: the drain currently installed in this logger's shared
cell (`none` only for a dangling cell id, which no constructed logger has). -/
def Logger.currentDrain (l : Logger) (st : LogState) : Option DrainImpl :=
  st.cells[l.drain]?

/-- One drain invocation as performed by `Logger::log`: the drain that was
called and the exact arguments passed to it. -/
structure DrainCall where
  drain : DrainImpl
  buf : Buffer
  info : RecordInfo
  loggerValues : List OwnedKeyValue
  callValues : List BorrowedKeyValue
  deriving DecidableEq, Repr

/-- `Logger::log(lvl, msg, values)` called from thread `tid`: builds a fresh
`RecordInfo`, fetches the current drain, borrows the thread's scratch buffer,
invokes the drain once with (buffer, info, own values, call values), discards
the drain's `Result` and clears the buffer.  Returns the new state together
with the list of drain invocations performed. -/
def Logger.log (l : Logger) (tid : Nat) (lvl : Level) (msg : String)
    (values : List BorrowedKeyValue) (st : LogState) :
    LogState × List DrainCall :=
  let info := RecordInfo.new lvl msg
  let d := (st.cells[l.drain]?).getD DrainImpl.discard
  let buf := st.bufs tid
  let res := d.runLog buf info l.values values
  ({ st with bufs := fun t => if t = tid then (res.2).clear else st.bufs t },
   [{ drain := d, buf := buf, info := info,
      loggerValues := l.values, callValues := values }])

/-- `Logger::critical(msg, values)`. -/
def Logger.critical (l : Logger) (tid : Nat) (msg : String)
    (values : List BorrowedKeyValue) (st : LogState) : LogState × List DrainCall :=
  l.log tid Level.critical msg values st

/-- `Logger::error(msg, values)`. -/
def Logger.error (l : Logger) (tid : Nat) (msg : String)
    (values : List BorrowedKeyValue) (st : LogState) : LogState × List DrainCall :=
  l.log tid Level.error msg values st

/-- `Logger::warn(msg, values)`. -/
def Logger.warn (l : Logger) (tid : Nat) (msg : String)
    (values : List BorrowedKeyValue) (st : LogState) : LogState × List DrainCall :=
  l.log tid Level.warning msg values st

/-- `Logger::info(msg, values)`. -/
def Logger.info (l : Logger) (tid : Nat) (msg : String)
    (values : List BorrowedKeyValue) (st : LogState) : LogState × List DrainCall :=
  l.log tid Level.info msg values st

/-- `Logger::debug(msg, values)`. -/
def Logger.debug (l : Logger) (tid : Nat) (msg : String)
    (values : List BorrowedKeyValue) (st : LogState) : LogState × List DrainCall :=
  l.log tid Level.debug msg values st

/-- `Logger::trace(msg, values)`. -/
def Logger.trace (l : Logger) (tid : Nat) (msg : String)
    (values : List BorrowedKeyValue) (st : LogState) : LogState × List DrainCall :=
  l.log tid Level.trace msg values st

/-! Helper lemmas shared by several claims. -/

/-- Child derivation keeps the parent's drain cell id. -/
theorem deriveAll_drain (root : Logger) (vss : List (List OwnedKeyValue)) :
    (Logger.deriveAll root vss).drain = root.drain := by
  induction vss generalizing root with
  | nil => rfl
  | cons vs vss ih =>
      simpa [Logger.deriveAll, Logger.new] using ih (Logger.new root vs)

/-- Iterated child derivation concatenates, in order, every appended list
after the root's values. -/
theorem deriveAll_values (root : Logger) (vss : List (List OwnedKeyValue)) :
    (Logger.deriveAll root vss).values = root.values ++ vss.flatten := by
  induction vss generalizing root with
  | nil => simp [Logger.deriveAll]
  | cons vs vss ih =>
      simp only [Logger.deriveAll, List.foldl_cons, List.flatten_cons] at ih ⊢
      rw [ih (Logger.new root vs)]
      simp [Logger.new]

/-! Claim theorems. -/

/-- C1: a single `log(level, message, call_values)` call invokes the
currently installed drain exactly once, passing it the thread's scratch
buffer, record metadata carrying exactly that level and that message, the
logger's inherited key-value sequence, and `call_values`; each of the six
level wrappers calls `log` with its fixed level and the message and values
unchanged. -/
theorem log_invokes_drain_once (l : Logger) (tid : Nat) (lvl : Level)
    (msg : String) (vs : List BorrowedKeyValue) (st : LogState) (d : DrainImpl)
    (h : st.cells[l.drain]? = some d) :
    (l.log tid lvl msg vs st).2 =
      [{ drain := d, buf := st.bufs tid, info := RecordInfo.new lvl msg,
         loggerValues := l.values, callValues := vs }]
    ∧ (RecordInfo.new lvl msg).level = lvl
    ∧ (RecordInfo.new lvl msg).msg = msg
    ∧ l.critical tid msg vs st = l.log tid Level.critical msg vs st
    ∧ l.error tid msg vs st = l.log tid Level.error msg vs st
    ∧ l.warn tid msg vs st = l.log tid Level.warning msg vs st
    ∧ l.info tid msg vs st = l.log tid Level.info msg vs st
    ∧ l.debug tid msg vs st = l.log tid Level.debug msg vs st
    ∧ l.trace tid msg vs st = l.log tid Level.trace msg vs st := by
  refine ⟨?_, rfl, rfl, rfl, rfl, rfl, rfl, rfl, rfl⟩
  simp [Logger.log, h]

/-- C1 witness: a concrete root with one value logging "hello" at info level
produces exactly one drain invocation with the expected arguments. -/
theorem log_invokes_drain_once_witness :
    (Logger.log ⟨0, [("service", "x")]⟩ 0 Level.info "hello" []
        ⟨[DrainImpl.discard], fun _ => Buffer.withCapacity 128⟩).2 =
      [{ drain := DrainImpl.discard, buf := Buffer.withCapacity 128,
         info := RecordInfo.new Level.info "hello",
         loggerValues := [("service", "x")], callValues := [] }] :=
  (log_invokes_drain_once ⟨0, [("service", "x")]⟩ 0 Level.info "hello" []
      ⟨[DrainImpl.discard], fun _ => Buffer.withCapacity 128⟩
      DrainImpl.discard rfl).1

/-- C2: any sequence of child derivations from one root yields a logger
whose key-value sequence is the root's sequence concatenated, in order, with
the values appended at each derivation; duplicates are kept (nothing is
deduplicated), since the result is literal list concatenation. -/
theorem derive_values_concat (root : Logger) (vss : List (List OwnedKeyValue)) :
    (Logger.deriveAll root vss).values = root.values ++ vss.flatten :=
  deriveAll_values root vss

/-- C3: any two loggers derived (directly or transitively) from the same
root share the drain cell: after `set_drain` or `swap_drain` through either,
a drain fetch through the other observes the newly installed drain. -/
theorem hierarchy_shared_drain (root : Logger) (vss1 vss2 : List (List OwnedKeyValue))
    (d : DrainImpl) (st : LogState) (h : root.drain < st.cells.length) :
    (Logger.deriveAll root vss1).currentDrain
        ((Logger.deriveAll root vss2).set_drain d st) = some d
    ∧ (Logger.deriveAll root vss1).currentDrain
        ((Logger.deriveAll root vss2).swap_drain d st).2 = some d := by
  constructor <;>
    · simp only [Logger.currentDrain, Logger.set_drain, Logger.swap_drain,
        deriveAll_drain]
      exact List.getElem?_set_self h

/-- C3 witness: on a one-cell hierarchy, a child observes the drain installed
through the root. -/
theorem hierarchy_shared_drain_witness :
    (Logger.deriveAll ⟨0, []⟩ [[("a", "1")]]).currentDrain
        ((Logger.deriveAll ⟨0, []⟩ []).set_drain (DrainImpl.custom 2 false [])
          ⟨[DrainImpl.discard], fun _ => Buffer.withCapacity 128⟩) =
      some (DrainImpl.custom 2 false []) :=
  (hierarchy_shared_drain ⟨0, []⟩ [[("a", "1")]] [] (DrainImpl.custom 2 false [])
      ⟨[DrainImpl.discard], fun _ => Buffer.withCapacity 128⟩ (by decide)).1

/-- C4: `swap_drain(new_drain)` returns exactly the drain active immediately
before the swap; afterwards every fetch anywhere in the hierarchy (any logger
with the same cell) returns the new drain, and logging does not disturb the
cells, so this persists until the next `set_drain`/`swap_drain`. -/
theorem swap_drain_spec (l : Logger) (d dprev : DrainImpl) (st : LogState)
    (h : st.cells[l.drain]? = some dprev) :
    (l.swap_drain d st).1 = some dprev
    ∧ (∀ l2 : Logger, l2.drain = l.drain →
        l2.currentDrain (l.swap_drain d st).2 = some d)
    ∧ (∀ (l2 : Logger) (tid : Nat) (lvl : Level) (msg : String)
        (vs : List BorrowedKeyValue),
        ((l2.log tid lvl msg vs (l.swap_drain d st).2).1).cells =
          ((l.swap_drain d st).2).cells) := by
  refine ⟨h, ?_, ?_⟩
  · intro l2 h2
    simp only [Logger.currentDrain, Logger.swap_drain, h2]
    exact List.getElem?_set_self (List.getElem?_eq_some.mp h).1
  · intro l2 tid lvl msg vs
    simp [Logger.log]

/-- C4 witness: swapping a custom drain into a hierarchy running the discard
drain returns the discard drain. -/
theorem swap_drain_spec_witness :
    (Logger.swap_drain ⟨0, []⟩ (DrainImpl.custom 1 false [])
        ⟨[DrainImpl.discard], fun _ => Buffer.withCapacity 128⟩).1 =
      some DrainImpl.discard :=
  (swap_drain_spec ⟨0, []⟩ (DrainImpl.custom 1 false []) DrainImpl.discard
      ⟨[DrainImpl.discard], fun _ => Buffer.withCapacity 128⟩ rfl).1

/-- C5: even when the installed drain fails on the given record, `log`
returns normally — its result is the fully determined pair (state with the
calling thread's buffer cleared, the single invocation trace); the drain's
error value appears nowhere in the result, so the failure is silently
discarded and the log line dropped. -/
theorem log_absorbs_drain_failure (l : Logger) (tid : Nat) (lvl : Level)
    (msg : String) (vs : List BorrowedKeyValue) (st : LogState) (d : DrainImpl)
    (hd : st.cells[l.drain]? = some d)
    (hfail : (d.runLog (st.bufs tid) (RecordInfo.new lvl msg) l.values vs).1 =
      .error ()) :
    l.log tid lvl msg vs st =
      ({ st with bufs := fun t => if t = tid then
            ((d.runLog (st.bufs tid) (RecordInfo.new lvl msg) l.values vs).2).clear
          else st.bufs t },
       [{ drain := d, buf := st.bufs tid, info := RecordInfo.new lvl msg,
          loggerValues := l.values, callValues := vs }]) := by
  simp [Logger.log, hd]

/-- C5 witness: with a failing custom drain installed, the log call still
completes and the calling thread's buffer ends up cleared. -/
theorem log_absorbs_drain_failure_witness :
    ((Logger.log ⟨0, []⟩ 0 Level.error "boom" []
        ⟨[DrainImpl.custom 3 true [7]], fun _ => Buffer.withCapacity 128⟩).1).bufs 0 =
      { data := [], cap := 128 } := by
  rw [log_absorbs_drain_failure ⟨0, []⟩ 0 Level.error "boom" []
      ⟨[DrainImpl.custom 3 true [7]], fun _ => Buffer.withCapacity 128⟩
      (DrainImpl.custom 3 true [7]) rfl rfl]
  decide

/-- C6: after any `log` call — whether the drain succeeded or failed — the
calling thread's scratch buffer has length zero, and its capacity is the one
the buffer had after the drain ran (clearing retains capacity). -/
theorem log_clears_buffer (l : Logger) (tid : Nat) (lvl : Level) (msg : String)
    (vs : List BorrowedKeyValue) (st : LogState) :
    (((l.log tid lvl msg vs st).1).bufs tid).data = []
    ∧ (((l.log tid lvl msg vs st).1).bufs tid).cap =
        ((((st.cells[l.drain]?).getD DrainImpl.discard).runLog (st.bufs tid)
            (RecordInfo.new lvl msg) l.values vs).2).cap := by
  constructor <;> simp [Logger.log, Buffer.clear]

/-- C7: a record's timestamp is absent until first requested; the first
`ts` call stores and returns "now"; any later `ts` call returns the stored
instant unchanged (whatever the clock now says); after `set_ts t`, `ts`
returns `t`. -/
theorem ts_memoized (lvl : Level) (msg : String) (now : Timestamp) :
    (RecordInfo.new lvl msg).tsCell = none
    ∧ ((RecordInfo.new lvl msg).ts now).1 = now
    ∧ ((RecordInfo.new lvl msg).ts now).2.tsCell = some now
    ∧ (∀ (r : RecordInfo) (t now2 : Timestamp),
        r.tsCell = some t → r.ts now2 = (t, r))
    ∧ (∀ (r : RecordInfo) (t now2 : Timestamp),
        (r.set_ts t).ts now2 = (t, r.set_ts t)) := by
  refine ⟨rfl, rfl, rfl, ?_, ?_⟩
  · intro r t now2 h
    simp [RecordInfo.ts, h]
  · intro r t now2
    simp [RecordInfo.ts, RecordInfo.set_ts]

/-- C7 witness: the first `ts` call at instant 5 returns 5, and a second call
at instant 9 still returns 5 with the record unchanged. -/
theorem ts_memoized_witness :
    ((RecordInfo.new Level.info "m").ts 5).1 = 5
    ∧ ((RecordInfo.new Level.info "m").ts 5).2.ts 9 =
        (5, ((RecordInfo.new Level.info "m").ts 5).2) := by
  have h := ts_memoized Level.info "m" 5
  exact ⟨h.2.1, h.2.2.2.1 ((RecordInfo.new Level.info "m").ts 5).2 5 9 h.2.2.1⟩

/-- C8: `new_root(values)` builds a logger whose sequence equals the given
values, whose cell id did not exist before (fresh, so shared with no other
hierarchy: every cell id valid beforehand differs from it), and whose cell is
seeded with the discard drain; buffers are untouched. -/
theorem new_root_spec (values : List OwnedKeyValue) (st : LogState) :
    (Logger.new_root values st).1.values = values
    ∧ st.cells[(Logger.new_root values st).1.drain]? = none
    ∧ (Logger.new_root values st).1.currentDrain (Logger.new_root values st).2 =
        some DrainImpl.discard
    ∧ (Logger.new_root values st).2.cells = st.cells ++ [DrainImpl.discard]
    ∧ (Logger.new_root values st).2.bufs = st.bufs
    ∧ ∀ l2 : Logger, l2.drain < st.cells.length →
        l2.drain ≠ (Logger.new_root values st).1.drain := by
  refine ⟨rfl, List.getElem?_length st.cells, ?_, rfl, rfl, ?_⟩
  · simp only [Logger.new_root, Logger.currentDrain]
    exact List.getElem?_concat_length st.cells DrainImpl.discard
  · intro l2 h2
    exact Nat.ne_of_lt h2

/-- C8 witness: a logger with the only valid cell id of a one-cell state has
a different cell id than a freshly built root. -/
theorem new_root_spec_witness :
    (⟨0, []⟩ : Logger).drain ≠
      (Logger.new_root [("k", "v")]
        ⟨[DrainImpl.discard], fun _ => Buffer.withCapacity 128⟩).1.drain :=
  (new_root_spec [("k", "v")]
      ⟨[DrainImpl.discard], fun _ => Buffer.withCapacity 128⟩).2.2.2.2.2
    ⟨0, []⟩ (by decide)

/-- C10: a `log` call leaves the logger and the hierarchy unchanged: the
drain cells are untouched (the installed drain is only read, never replaced),
every other thread's buffer is untouched, and the drain receives exactly the
logger's unmodified key-value sequence. -/
theorem log_frame (l : Logger) (tid : Nat) (lvl : Level) (msg : String)
    (vs : List BorrowedKeyValue) (st : LogState) :
    ((l.log tid lvl msg vs st).1).cells = st.cells
    ∧ l.currentDrain ((l.log tid lvl msg vs st).1) = l.currentDrain st
    ∧ (∀ t : Nat, t ≠ tid → ((l.log tid lvl msg vs st).1).bufs t = st.bufs t)
    ∧ ((l.log tid lvl msg vs st).2).map DrainCall.loggerValues = [l.values] := by
  refine ⟨rfl, rfl, ?_, rfl⟩
  intro t ht
  simp [Logger.log, ht]

/-- C10 witness: after a log call from thread 0, thread 1's buffer is the
initial one. -/
theorem log_frame_witness :
    ((Logger.log ⟨0, []⟩ 0 Level.debug "m" [] LogState.init).1).bufs 1 =
      LogState.init.bufs 1 :=
  (log_frame ⟨0, []⟩ 0 Level.debug "m" [] LogState.init).2.2.1 1 (by decide)
